import Mathlib

/-!
# Verification of the solar-search orchestration and memory subsystems

Shallow embedding, translated from the repository sources:
* `solar.py` — `SolarAPI.intelligent_complete`, `_check_search_needed`,
  `_extract_search_queries_fast`, `_get_search_grounded_response`,
  `_stream_request` and the callback invocation sites;
* `memory.py` — `MemoryManager.add_conversation`, `_update_word_count`,
  `_count_words`, `_summarize_memory`, `summarize_with_llm`,
  `load_memory`, `save_memory`.

Python exceptions are modelled with `Except PyErr`; JSON documents with the
inductive `Jv`; the dynamic (duck-typed) operations of the Python runtime
(`in`, indexing, `len`, truthiness, `dict.get`) are modelled by the `py*`
helpers below, including the `TypeError`/`KeyError`/`AttributeError` they
raise on ill-typed operands.
-/

/-- Python exception classes that the modelled code can raise or catch. -/
inductive PyErr where
  | typeError
  | keyError
  | indexError
  | attributeError
  | valueError
  | jsonDecodeError
  | other
deriving DecidableEq, Repr

/-- A JSON value (the result of `json.load` / the argument of `json.dump`).
Integer numbers (Python `int`) are modelled exactly as `num`; non-integral
numbers and the `NaN`/`Infinity` constants (Python `float`) are kept as
their literal text in `fnum` — no claim depends on a float's value, only
on which documents parse and on their list structure. -/
inductive Jv where
  | null
  | bool (b : Bool)
  | num (n : Int)
  | fnum (lit : String)
  | str (s : String)
  | arr (l : List Jv)
  | obj (l : List (String × Jv))

/-- Python truthiness (`if x:`) for JSON-shaped values.  A float literal is
falsy exactly when its value is 0.0, i.e. when every mantissa digit is zero
(`NaN` and `Infinity`, which carry letters other than an exponent marker,
are truthy). -/
def pyTruthy : Jv → Bool
  | .null => false
  | .bool b => b
  | .num n => n ≠ 0
  | .fnum lit =>
    lit.toList.any (fun c => c.isDigit ∧ c ≠ '0') ∨
      lit.toList.any (fun c => c.isAlpha ∧ c ≠ 'e' ∧ c ≠ 'E')
  | .str s => s ≠ ""
  | .arr l => ¬l.isEmpty
  | .obj l => ¬l.isEmpty

/-- Python `key in v` for a string key: dict → key containment, list →
membership (a string only compares equal to a string element), string →
substring test, other values → `TypeError` (argument not iterable). -/
def pyIn (key : String) : Jv → Except PyErr Bool
  | .obj l => .ok (l.any (fun p => p.1 == key))
  | .arr l => .ok (l.any (fun x => match x with | .str s => s == key | _ => false))
  | .str s => .ok (decide (key.toList <:+: s.toList))
  | _ => .error .typeError

/-- Python `v[key]` for a string key: dict lookup (`KeyError` when absent),
`TypeError` on lists/strings (indices must be integers) and scalars. -/
def pyGetStr (key : String) : Jv → Except PyErr Jv
  | .obj l =>
    match l.find? (fun p => p.1 == key) with
    | some p => .ok p.2
    | none => .error .keyError
  | _ => .error .typeError

/-- Python `v[0]`: list head (`IndexError` when empty), first character of a
string, `KeyError` for dicts (0 is not a string key), `TypeError` otherwise. -/
def pyGetIdx0 : Jv → Except PyErr Jv
  | .arr (x :: _) => .ok x
  | .arr [] => .error .indexError
  | .str s => if s.isEmpty then .error .indexError else .ok (.str (s.take 1))
  | .obj _ => .error .keyError
  | _ => .error .typeError

/-- Python `len(v)`: defined for lists, strings and dicts, `TypeError`
otherwise. -/
def pyLen : Jv → Except PyErr Nat
  | .arr l => .ok l.length
  | .str s => .ok s.length
  | .obj l => .ok l.length
  | _ => .error .typeError

/-- Python `v.get(key, default)`: only dicts have `.get`; every other value
raises `AttributeError`. -/
def pyDictGet (key : String) (dflt : Jv) : Jv → Except PyErr Jv
  | .obj l =>
    match l.find? (fun p => p.1 == key) with
    | some p => .ok p.2
    | none => .ok dflt
  | _ => .error .attributeError

/-- Python `v[key] = val` on a dict: replace in place when the key exists
(order preserved), append otherwise; `TypeError` on non-dicts. -/
def pySetItem (key : String) (val : Jv) : Jv → Except PyErr Jv
  | .obj l =>
    if l.any (fun p => p.1 == key) then
      .ok (.obj (l.map (fun p => if p.1 == key then (p.1, val) else p)))
    else
      .ok (.obj (l ++ [(key, val)]))
  | _ => .error .typeError

/-- Python `str.strip()`: drop leading and trailing whitespace. -/
def pyStrip (cs : List Char) : List Char :=
  ((cs.dropWhile Char.isWhitespace).reverse.dropWhile Char.isWhitespace).reverse

/-- Python `str.split()` with no argument over a character list: the
maximal non-whitespace runs, in order (empty tokens never occur).  `acc`
holds the current token, reversed. -/
def splitWsAux : List Char → List Char → List String
  | [], [] => []
  | [], acc => [String.mk acc.reverse]
  | c :: rest, acc =>
    if c.isWhitespace then
      match acc with
      | [] => splitWsAux rest []
      | _ => String.mk acc.reverse :: splitWsAux rest []
    else splitWsAux rest (c :: acc)

/-- The whitespace-token list of a string (`text.split()` in Python), used
by `_count_words` and by `_summarize_memory`'s target-size truncation. -/
def splitWs (s : String) : List String :=
  splitWsAux s.toList []

/-- Embedding of `MemoryManager._count_words`: `text.split()` then count the non-empty
tokens; `str.split()` never produces empty tokens, so this is the token
count. -/
def countWords (s : String) : Nat :=
  (splitWs s).length

/-- Embedding of `_count_words` on a dynamic value: `if not text: return 0` lets every
falsy value through with count 0; `text.split()` then raises
`AttributeError` on any truthy non-string. -/
def pyCountWords (v : Jv) : Except PyErr Nat :=
  if pyTruthy v then
    match v with
    | .str s => .ok (countWords s)
    | _ => .error .attributeError
  else
    .ok 0

/-- Embedding of `SolarAPI._check_search_needed`, response handling (solar.py lines
145-158): strip and uppercase the model response, look for `'Y'` in the
first three characters, then for `'N'`; default to `"N"`, also when the
completion call raised. -/
def checkSearchNeeded (response : Except PyErr String) : String :=
  match response with
  | .error _ => "N"
  | .ok r =>
    let clean := (pyStrip r.toList).map Char.toUpper
    if (clean.take 3).contains 'Y' then "Y"
    else if (clean.take 3).contains 'N' then "N"
    else "N"

/-- Modelled from the spec's words (for comparison with `checkSearchNeeded`):
scan the first 3 characters of the uppercased, trimmed response and answer
`"Y"` when a `'Y'` occurs before any `'N'`, `"N"` when an `'N'` occurs
before any `'Y'`, `"N"` otherwise. -/
def specVerdictC1 (s : String) : String :=
  match (((pyStrip s.toList).map Char.toUpper).take 3).find? (fun c => c == 'Y' || c == 'N') with
  | some 'Y' => "Y"
  | _ => "N"

/-- One entry of `MemoryManager.memory["conversations"]` (memory.py lines
51-57); `sources` and `metadata` are arbitrary JSON payloads. -/
structure Conv where
  timestamp : String
  userInput : String
  assistantResponse : String
  sources : Jv
  metadata : Jv

/-- The `MemoryManager.memory` dict (memory.py lines 33-38), typed.
`last_updated` is `null` or an ISO timestamp string, kept as `Jv`. -/
structure Mem where
  conversations : List Conv
  summary : String
  lastUpdated : Jv
  wordCount : Nat

/-- The fresh state built in `MemoryManager.__init__` / `clear_memory`. -/
def memInit : Mem := ⟨[], "", .null, 0⟩

/-- The word total that `_update_word_count` computes: words of the summary
(counting a falsy empty summary as 0, which `countWords` already does) plus
the words of every conversation's `user_input` and `assistant_response`. -/
def computedWordCount (m : Mem) : Nat :=
  countWords m.summary +
    m.conversations.foldl
      (fun acc c => acc + countWords c.userInput + countWords c.assistantResponse) 0

/-- Embedding of `MemoryManager._update_word_count` (memory.py lines 169-182). -/
def updateWordCount (m : Mem) : Mem :=
  { m with wordCount := computedWordCount m }

/-- The simple-summarization body of `MemoryManager._summarize_memory`
(memory.py lines 209-236): keep the last 5 conversations, fold every older
conversation into the summary as a `"Topic: "` line (first 100 characters of
the user input), join with `" | "`, truncate the joined summary to
`summary_target` whitespace tokens with a glued `"..."`, then recompute the
word count. -/
def summarizeHeuristic (summaryTarget : Nat) (m : Mem) : Mem :=
  let important := m.conversations.drop (m.conversations.length - 5)
  let older := m.conversations.take (m.conversations.length - 5)
  let m1 :=
    if older.isEmpty then m
    else
      let parts :=
        (if m.summary ≠ "" then [m.summary] else []) ++
          older.map (fun c => "Topic: " ++ c.userInput.take 100)
      let newSummary := String.intercalate " | " parts
      let ws := splitWs newSummary
      let newSummary :=
        if ws.length > summaryTarget then
          String.intercalate " " (ws.take summaryTarget) ++ "..."
        else newSummary
      { m with summary := newSummary }
  updateWordCount { m1 with conversations := important }

/-- The prompt template of `MemoryManager.summarize_with_llm` (memory.py
lines 269-276). -/
def summarizePrompt (summaryTarget : Nat) (content : String) : String :=
  "Please create a concise summary of the following conversation history. \n" ++
  "Focus on key topics, important information, and context that would be useful for future conversations.\n" ++
  "Keep the summary under " ++ toString summaryTarget ++ " words.\n\n" ++
  "Conversation History:\n" ++ content ++ "\n\nSummary:"

/-- The `content_to_summarize` list built by `summarize_with_llm` (memory.py
lines 250-262): the previous summary when present, then `"User: "` /
`"Assistant: "` lines for every conversation except the last 3. -/
def contentToSummarize (m : Mem) : List String :=
  (if m.summary ≠ "" then ["Previous summary: " ++ m.summary] else []) ++
    (m.conversations.take (m.conversations.length - 3)).foldr
      (fun c acc => ("User: " ++ c.userInput) :: ("Assistant: " ++ c.assistantResponse) :: acc) []

/-- Embedding of `MemoryManager.summarize_with_llm` (memory.py lines 240-292): summarize
everything except the last 3 conversations through the provided LLM
function; on success replace the summary, keep only the last 3
conversations and recompute the word count; if the LLM call raises, fall
back to `self._summarize_memory()` (no LLM), i.e. the heuristic path. -/
def summarizeWithLlm (summaryTarget : Nat)
    (llm : String → Except PyErr String) (m : Mem) : Mem :=
  if m.conversations.isEmpty then m
  else if (contentToSummarize m).isEmpty then m
  else
    match llm (summarizePrompt summaryTarget (String.intercalate "\n" (contentToSummarize m))) with
    | .ok newSummary =>
      updateWordCount
        { m with
          summary := newSummary
          conversations := m.conversations.drop (m.conversations.length - 3) }
    | .error _ => summarizeHeuristic summaryTarget m

/-- Embedding of `MemoryManager._summarize_memory` (memory.py lines 193-236): no-op on an
empty conversation list; try the LLM summarizer first when one is
configured (its internal handler already falls back to the heuristic);
otherwise run the heuristic summarization. -/
def summarizeMemory (summaryTarget : Nat)
    (llm : Option (String → Except PyErr String)) (m : Mem) : Mem :=
  if m.conversations.isEmpty then m
  else
    match llm with
    | some f => summarizeWithLlm summaryTarget f m
    | none => summarizeHeuristic summaryTarget m

/-- The first half of `MemoryManager.add_conversation` (memory.py lines
51-61): append the new conversation, stamp `last_updated`, recompute the
word count.  Split out so that the pre-summarization word count can be
named. -/
def addStep1 (ts userInput assistantResponse : String) (sources metadata : Jv)
    (m : Mem) : Mem :=
  updateWordCount
    { m with
      conversations := m.conversations ++ [⟨ts, userInput, assistantResponse, sources, metadata⟩]
      lastUpdated := .str ts }

/-- Embedding of `MemoryManager.add_conversation` (memory.py lines 41-67): append and
recompute, then summarize when the word count exceeds `max_words`.
(`save_memory` only writes the state out and does not change it.) -/
def addConversation (maxWords summaryTarget : Nat)
    (llm : Option (String → Except PyErr String))
    (ts userInput assistantResponse : String) (sources metadata : Jv)
    (m : Mem) : Mem :=
  let m1 := addStep1 ts userInput assistantResponse sources metadata m
  if m1.wordCount > maxWords then summarizeMemory summaryTarget llm m1 else m1

/-- The argument bundle of one `add_conversation` call. -/
structure AddArgs where
  ts : String
  userInput : String
  assistantResponse : String
  sources : Jv
  metadata : Jv

/-- Run a sequence of `add_conversation` calls. -/
def runAdds (maxWords summaryTarget : Nat)
    (llm : Option (String → Except PyErr String))
    (calls : List AddArgs) (m : Mem) : Mem :=
  calls.foldl
    (fun st a =>
      addConversation maxWords summaryTarget llm a.ts a.userInput a.assistantResponse
        a.sources a.metadata st) m

/-- JSON encoding of one conversation, with the dict insertion order of
memory.py lines 51-57. -/
def convToJ (c : Conv) : Jv :=
  .obj [("timestamp", .str c.timestamp),
        ("user_input", .str c.userInput),
        ("assistant_response", .str c.assistantResponse),
        ("sources", c.sources),
        ("metadata", c.metadata)]

/-- JSON encoding of the memory dict, with the insertion order of memory.py
lines 33-38.  `MemoryManager.save_memory` writes exactly this document
(`json.dump(self.memory, ...)`). -/
def saveMemory (m : Mem) : Jv :=
  .obj [("conversations", .arr (m.conversations.map convToJ)),
        ("summary", .str m.summary),
        ("last_updated", m.lastUpdated),
        ("word_count", .num (m.wordCount : Int))]

/-- The initial memory dict as a JSON document. -/
def initialMemJ : Jv := saveMemory memInit

/-- The `for conv in self.memory["conversations"]` loop body of
`_update_word_count`, over a JSON list: `conv["user_input"]` /
`conv["assistant_response"]` lookups followed by `_count_words`, with the
dynamic errors those operations raise on ill-shaped entries. -/
def convLoopJ : List Jv → Nat → Except PyErr Nat
  | [], acc => .ok acc
  | c :: rest, acc => do
    let ui ← pyGetStr "user_input" c
    let n1 ← pyCountWords ui
    let ar ← pyGetStr "assistant_response" c
    let n2 ← pyCountWords ar
    convLoopJ rest (acc + n1 + n2)

/-- Python `for conv in X` over an arbitrary value: lists iterate their elements;
iterating a non-empty string or dict yields strings, on which the loop body
immediately raises `TypeError` (string indexing with a string key);
scalars are not iterable. -/
def pyForConvs : Jv → Nat → Except PyErr Nat
  | .arr l, acc => convLoopJ l acc
  | .str s, acc => if s.isEmpty then .ok acc else .error .typeError
  | .obj l, acc => if l.isEmpty then .ok acc else .error .typeError
  | _, _ => .error .typeError

/-- Embedding of `MemoryManager._update_word_count` run on the raw loaded JSON document
(memory.py lines 169-182): count the summary when truthy, add the words of
every conversation, store the total into `word_count`. -/
def updateWordCountJ (mem : Jv) : Except PyErr Jv := do
  let s ← pyGetStr "summary" mem
  let base ← if pyTruthy s then pyCountWords s else pure 0
  let convs ← pyGetStr "conversations" mem
  let total ← pyForConvs convs base
  pySetItem "word_count" (.num (total : Int)) mem

/-- The `all(key in loaded_memory for key in [...])` structure check of
`load_memory` (memory.py line 153), with Python's short-circuit order and
the `TypeError` that `in` raises on non-container values. -/
def allKeysIn (v : Jv) : Except PyErr Bool := do
  let b1 ← pyIn "conversations" v
  if !b1 then pure false
  else do
    let b2 ← pyIn "summary" v
    if !b2 then pure false
    else do
      let b3 ← pyIn "last_updated" v
      if !b3 then pure false
      else pyIn "word_count" v

/-- Embedding of `MemoryManager.load_memory` (memory.py lines 146-159).  The storage is
modelled as `none` (no file) or `some` parse outcome of the file's content;
`json.JSONDecodeError` (and `FileNotFoundError`) are the only exceptions
caught.  On a successful load the four top-level keys are checked, the
document becomes the memory and the word count is recomputed; any other
exception (e.g. `TypeError` from the key check on a scalar document)
escapes to the constructor.  The result is the manager's `self.memory`. -/
def loadMemory (file : Option (Except Unit Jv)) : Except PyErr Jv :=
  match file with
  | none => .ok initialMemJ
  | some (.error _) => .ok initialMemJ
  | some (.ok loaded) => do
    let ok ← allKeysIn loaded
    if ok then updateWordCountJ loaded else pure initialMemJ

/-- One raw Tavily search result, a JSON dict with optional fields accessed
via `.get` in the source.  `score` (a float in the JSON) is modelled as an
integer; no claim depends on its value. -/
structure SR where
  title : Option String
  url : Option String
  content : Option String
  rawContent : Option String
  score : Option Int
  publishedDate : Option String
deriving DecidableEq, Repr

/-- One formatted source dict (solar.py lines 308-315). -/
structure Source where
  id : Nat
  title : String
  url : String
  content : String
  score : Int
  publishedDate : String
deriving DecidableEq, Repr

/-- The deduplication loop of `_get_search_grounded_response` (solar.py
lines 287-294) with its `seen_urls` set threaded through: a result is kept
when `result.get('url', '')` is truthy (non-empty) and not seen before. -/
def dedupAux (seen : List String) : List SR → List SR
  | [] => []
  | r :: rs =>
    let u := r.url.getD ""
    if u ≠ "" ∧ u ∉ seen then r :: dedupAux (u :: seen) rs
    else dedupAux seen rs

/-- URL deduplication of the merged search results, starting from an empty
`seen_urls` set. -/
def dedupResults (rs : List SR) : List SR := dedupAux [] rs

/-- The source-formatting loop of `_get_search_grounded_response` (solar.py
lines 301-315): `enumerate(unique_results[:15], 1)` with the `.get`
defaults of the source (`content` falling back to `raw_content`). -/
def buildSources (unique : List SR) : List Source :=
  (unique.take 15).enum.map fun p =>
    { id := p.1 + 1
      title := p.2.title.getD "No Title"
      url := p.2.url.getD "No URL"
      content := p.2.content.getD (p.2.rawContent.getD "No Content")
      score := p.2.score.getD 0
      publishedDate := p.2.publishedDate.getD "No Date" }

/-- One server-sent event's `data` field as seen by `_stream_request`:
either the literal `"[DONE]"` sentinel or a JSON parse outcome of the
chunk text (`json.loads` is modelled by its result). -/
inductive EvData where
  | doneMark
  | payload (p : Except Unit Jv)

/-- The chunk inspection of `_stream_request` (solar.py lines 581-584):
`"choices" in chunk and len(chunk["choices"]) > 0`, then
`chunk["choices"][0].get("delta", {})`, then
`"content" in delta and delta["content"]`; returns the delta string when
present and truthy.  A truthy non-string content raises `TypeError` at the
`full_content += content` concatenation. -/
def extractDelta (chunk : Jv) : Except PyErr (Option String) := do
  let b ← pyIn "choices" chunk
  if b then do
    let choices ← pyGetStr "choices" chunk
    let n ← pyLen choices
    if n > 0 then do
      let c0 ← pyGetIdx0 choices
      let delta ← pyDictGet "delta" (.obj []) c0
      let b2 ← pyIn "content" delta
      if b2 then do
        let v ← pyGetStr "content" delta
        if pyTruthy v then
          match v with
          | .str s => pure (some s)
          | _ => throw .typeError
        else pure none
      else pure none
    else pure none
  else pure none

/-- The event loop of `SolarAPI._stream_request` (solar.py lines 575-594)
with the caller-supplied `on_update` callback.  The loop body sits in a
`try ... except json.JSONDecodeError: pass`: a failed `json.loads` skips
the event, and a `json.JSONDecodeError` raised by `on_update` itself is
likewise swallowed (the content was already accumulated); any other
exception — including one raised inside `on_update` — propagates and
aborts the stream. -/
def streamLoop (onUpdate : Option (String → Except PyErr Unit)) :
    List EvData → String → Except PyErr String
  | [], acc => .ok acc
  | .doneMark :: _, acc => .ok acc
  | .payload (.error _) :: rest, acc => streamLoop onUpdate rest acc
  | .payload (.ok chunk) :: rest, acc =>
    match extractDelta chunk with
    | .error e => .error e
    | .ok none => streamLoop onUpdate rest acc
    | .ok (some c) =>
      let acc := acc ++ c
      match onUpdate with
      | none => streamLoop onUpdate rest acc
      | some f =>
        match f c with
        | .ok _ => streamLoop onUpdate rest acc
        | .error .jsonDecodeError => streamLoop onUpdate rest acc
        | .error e => .error e

/-- Embedding of `SolarAPI._stream_request`: run the SSE loop with an empty accumulator
and return the accumulated full content (or the propagated exception). -/
def streamRequest (events : List EvData)
    (onUpdate : Option (String → Except PyErr Unit)) : Except PyErr String :=
  streamLoop onUpdate events ""

/-- The callback invocation pattern used by `intelligent_complete` and
`_get_search_grounded_response` for `on_search_start`,
`on_search_queries_generated` and `on_search_done` (solar.py lines 67-71,
77-81, 258-262, 318-322):

    if cb:
        try: cb(args)
        except Exception as e: print(...)

Every exception from the callback is caught and logged, so the site always
falls through normally. -/
def invokeCallback {α : Type} (cb : Option (α → Except PyErr Unit)) (a : α) :
    Except PyErr Unit :=
  match cb with
  | none => .ok ()
  | some f =>
    match f a with
    | .ok _ => .ok ()
    | .error _ => .ok ()

/-- JSON insignificant whitespace (exactly space, tab, newline, carriage
return, which is what `Char.isWhitespace` recognizes). -/
def skipWs (cs : List Char) : List Char :=
  cs.dropWhile Char.isWhitespace

/-- JSON string-escape resolution for the common escapes. -/
def jsonEsc (c : Char) : Option Char :=
  if c == 'n' then some '\n'
  else if c == 't' then some '\t'
  else if c == 'r' then some '\r'
  else if c == '"' then some c
  else if c == '\\' then some c
  else if c == '/' then some c
  else if c == 'b' then some (Char.ofNat 8)
  else if c == 'f' then some (Char.ofNat 12)
  else none

/-- The numeric value of a hexadecimal digit, for `\uXXXX` escapes. -/
def hexVal (c : Char) : Option Nat :=
  if c.isDigit then some (c.toNat - 48)
  else if 'a' ≤ c ∧ c ≤ 'f' then some (c.toNat - 87)
  else if 'A' ≤ c ∧ c ≤ 'F' then some (c.toNat - 55)
  else none

/-- Four hexadecimal digits, as in a `\uXXXX` escape. -/
def hex4 : List Char → Option (Nat × List Char)
  | a :: b :: c :: d :: rest =>
    match hexVal a, hexVal b, hexVal c, hexVal d with
    | some x1, some x2, some x3, some x4 =>
      some (((x1 * 16 + x2) * 16 + x3) * 16 + x4, rest)
    | _, _, _, _ => none
  | _ => none

/-- Parse the remainder of a JSON string literal (after the opening quote),
returning the decoded string and the rest of the input.  Mirrors Python's
strict decoder: a raw control character is an error; `\uXXXX` escapes are
decoded, with a high/low surrogate pair combined into one character.  A
**lone** surrogate — which Python keeps as an unpaired UTF-16 code unit,
not representable in a Lean `String` — degrades to `Char.ofNat`'s default;
no claim inspects such a string's characters.  Fuel-indexed; every step
consumes input, so the input length bounds the fuel needed. -/
def strLitAux : Nat → List Char → String → Option (String × List Char)
  | 0, _, _ => none
  | fuel + 1, cs, acc =>
    match cs with
    | [] => none
    | c :: rest =>
      if c == '"' then some (acc, rest)
      else if c == '\\' then
        match rest with
        | [] => none
        | 'u' :: r2 =>
          match hex4 r2 with
          | none => none
          | some (n, r3) =>
            if 0xD800 ≤ n ∧ n < 0xDC00 then
              match r3 with
              | '\\' :: 'u' :: r4 =>
                match hex4 r4 with
                | none => none
                | some (n2, r5) =>
                  if 0xDC00 ≤ n2 ∧ n2 < 0xE000 then
                    strLitAux fuel r5
                      (acc.push
                        (Char.ofNat (0x10000 + (n - 0xD800) * 1024 + (n2 - 0xDC00))))
                  else strLitAux fuel r3 (acc.push (Char.ofNat n))
              | _ => strLitAux fuel r3 (acc.push (Char.ofNat n))
            else strLitAux fuel r3 (acc.push (Char.ofNat n))
        | e :: r2 =>
          match jsonEsc e with
          | some ch => strLitAux fuel r2 (acc.push ch)
          | none => none
      else if c.toNat < 32 then none
      else strLitAux fuel rest (acc.push c)

/-- The natural number denoted by a digit run. -/
def digitsVal (ds : List Char) : Nat :=
  ds.foldl (fun a c => 10 * a + (c.toNat - 48)) 0

/-- The fraction part of a JSON number — `.` followed by at least one
digit — with the consumed characters; `none` when no fraction starts
here (a bare `.` is left in place, making the caller's document invalid
exactly as Python's number regex does). -/
def fracSpan (cs : List Char) : Option (List Char × List Char) :=
  match cs with
  | '.' :: d :: _ =>
    if d.isDigit then
      some ('.' :: (cs.tail).takeWhile Char.isDigit, (cs.tail).dropWhile Char.isDigit)
    else none
  | _ => none

/-- The exponent part of a JSON number — `e`/`E`, an optional sign, and at
least one digit — with the consumed characters; `none` when no valid
exponent starts here. -/
def expSpan (cs : List Char) : Option (List Char × List Char) :=
  match cs with
  | [] => none
  | e :: rest =>
    if e == 'e' ∨ e == 'E' then
      match rest with
      | [] => none
      | [s] => if s.isDigit then some ([e, s], []) else none
      | s :: d :: _ =>
        if (s == '+' ∨ s == '-') ∧ d.isDigit then
          some (e :: s :: (rest.tail).takeWhile Char.isDigit,
            (rest.tail).dropWhile Char.isDigit)
        else if s.isDigit then
          some (e :: rest.takeWhile Char.isDigit, rest.dropWhile Char.isDigit)
        else none
    else none

/-- An unsigned JSON number per Python's number grammar: the integer part
is `0` or a nonzero-led digit run (a leading zero ends the number there,
as in Python, so `01` leaves a stray digit for the caller to choke on);
with a fraction or exponent the result is a float kept as literal text,
otherwise an exact integer. -/
def parseNumCore (cs : List Char) : Option (Jv × List Char) :=
  match cs with
  | [] => none
  | c :: rest =>
    if ¬ c.isDigit then none
    else
      let ip : List Char × List Char :=
        if c == '0' then (['0'], rest)
        else (cs.takeWhile Char.isDigit, cs.dropWhile Char.isDigit)
      match fracSpan ip.2 with
      | some (fchars, r2) =>
        match expSpan r2 with
        | some (echars, r3) => some (.fnum (String.mk (ip.1 ++ fchars ++ echars)), r3)
        | none => some (.fnum (String.mk (ip.1 ++ fchars)), r2)
      | none =>
        match expSpan ip.2 with
        | some (echars, r3) => some (.fnum (String.mk (ip.1 ++ echars)), r3)
        | none => some (.num (digitsVal ip.1 : Int), ip.2)

/-- Negation of a parsed number (for a leading `-`). -/
def negNum : Jv → Jv
  | .num n => .num (-n)
  | .fnum lit => .fnum ("-" ++ lit)
  | v => v

/-- A signed JSON number. -/
def parseNum (cs : List Char) : Option (Jv × List Char) :=
  match cs with
  | '-' :: rest => (parseNumCore rest).map (fun p => (negNum p.1, p.2))
  | _ => parseNumCore cs

/-- The keyword constants Python's decoder accepts at a value position —
`true`, `false`, `null`, and the non-standard `NaN`, `Infinity`,
`-Infinity` (floats, kept as literal text) — falling through to the number
grammar. -/
def parseConst (cs : List Char) : Option (Jv × List Char) :=
  match cs with
  | 't' :: 'r' :: 'u' :: 'e' :: r => some (.bool true, r)
  | 'f' :: 'a' :: 'l' :: 's' :: 'e' :: r => some (.bool false, r)
  | 'n' :: 'u' :: 'l' :: 'l' :: r => some (.null, r)
  | 'N' :: 'a' :: 'N' :: r => some (.fnum "NaN", r)
  | 'I' :: 'n' :: 'f' :: 'i' :: 'n' :: 'i' :: 't' :: 'y' :: r =>
    some (.fnum "Infinity", r)
  | '-' :: 'I' :: 'n' :: 'f' :: 'i' :: 'n' :: 'i' :: 't' :: 'y' :: r =>
    some (.fnum "-Infinity", r)
  | _ => parseNum cs

/-- Insert an object member with Python-dict semantics: a repeated key
keeps its first position but takes the last value. -/
def insertMember (k : String) (v : Jv) (acc : List (String × Jv)) :
    List (String × Jv) :=
  if acc.any (fun p => p.1 == k) then
    acc.map (fun p => if p.1 == k then (p.1, v) else p)
  else acc ++ [(k, v)]

mutual

/-- One JSON value at a value position: a string, an object, a constant or
a number.  A `'['` is rejected here: the documents this parser receives
are `'[' + group + ']'` with a `']'`-free group, so an inner array always
leaves the document unbalanced and Python's `json.loads` raises on it too.
Fuel-indexed (mutual with `parseMembers`); every production consumes
input, so the input length bounds the fuel needed. -/
def parseVal : Nat → List Char → Option (Jv × List Char)
  | 0, _ => none
  | fuel + 1, cs =>
    match cs with
    | [] => none
    | c :: rest =>
      if c == '"' then
        (strLitAux (rest.length + 1) rest "").map (fun p => (.str p.1, p.2))
      else if c == '{' then
        match skipWs rest with
        | '}' :: r => some (.obj [], r)
        | cs2 => parseMembers fuel cs2 []
      else parseConst cs

/-- The members of a JSON object after `{`: `"key" : value` pairs
separated by commas, closed by `}` (no trailing comma). -/
def parseMembers : Nat → List Char → List (String × Jv) → Option (Jv × List Char)
  | 0, _, _ => none
  | fuel + 1, cs, acc =>
    match cs with
    | '"' :: rest =>
      match strLitAux (rest.length + 1) rest "" with
      | none => none
      | some (k, r1) =>
        match skipWs r1 with
        | ':' :: r2 =>
          match parseVal fuel (skipWs r2) with
          | none => none
          | some (v, r3) =>
            match skipWs r3 with
            | ',' :: r4 => parseMembers fuel (skipWs r4) (insertMember k v acc)
            | '}' :: r4 => some (.obj (insertMember k v acc), r4)
            | _ => none
        | _ => none
    | _ => none

end

/-- After a first element: repeatedly consume `, element` until the closing
bracket.  Fuel-indexed; the fuel is an upper bound on the input length. -/
def elemsLoop : Nat → List Char → List Jv → Option (List Jv × List Char)
  | 0, _, _ => none
  | fuel + 1, cs, acc =>
    match skipWs cs with
    | ',' :: rest =>
      match parseVal ((skipWs rest).length + 1) (skipWs rest) with
      | some (v, r) => elemsLoop fuel r (v :: acc)
      | none => none
    | ']' :: rest => some (acc.reverse, rest)
    | _ => none

/-- A model of `json.loads` on the documents `_extract_search_queries_fast`
builds: `'[' + group + ']'`, where `group` is the regex capture between the
first `'['` and the first `']'` of the response and therefore contains no
`']'`.  The full grammar reachable through such documents is covered:
strings with escapes including `\uXXXX` (surrogate pairs combined),
integers, floats with fraction and exponent parts (kept as literal text in
`Jv.fnum`; no claim depends on a float's value), the constants `true`,
`false`, `null`, `NaN`, `Infinity`, `-Infinity`, and objects — including
nested objects — with last-value-wins duplicate keys.  An inner `'['` is
rejected directly, because with a `']'`-free group any inner array leaves
the document unbalanced, so `json.loads` raises on those documents as
well.  Returns `none` exactly where `json.loads` raises
`json.JSONDecodeError`. -/
def jsonLoadsArr (s : String) : Option (List Jv) :=
  match skipWs s.toList with
  | '[' :: rest =>
    match skipWs rest with
    | ']' :: tail => if (skipWs tail).isEmpty then some [] else none
    | cs =>
      match parseVal (cs.length + 1) cs with
      | some (v, r) =>
        match elemsLoop (r.length + 1) r [v] with
        | some (vs, r2) => if (skipWs r2).isEmpty then some vs else none
        | none => none
      | none => none
  | _ => none

/-- The `re.search(r'\[(.*?)\]', response, re.DOTALL)` extraction of
`_extract_search_queries_fast` (solar.py line 228): the text strictly
between the first `'['` and the first `']'` after it, or `none` when no
such pair exists. -/
def bracketGroup (s : String) : Option String :=
  match s.toList.dropWhile (fun c => c ≠ '[') with
  | [] => none
  | _ :: rest =>
    if rest.contains ']' then some (String.mk (rest.takeWhile (fun c => c ≠ ']')))
    else none

/-- Embedding of `SolarAPI._extract_search_queries_fast`, response handling (solar.py
lines 224-238): find the first bracketed group, rebuild `'[' + group + ']'`
and JSON-parse it, truncate the parsed array to 3 entries; when the
completion call raises, no group is found, or parsing fails, fall back to
`[user_query]`. -/
def extractSearchQueriesFast (userQuery : String)
    (response : Except PyErr String) : List Jv :=
  match response with
  | .error _ => [.str userQuery]
  | .ok r =>
    match bracketGroup r with
    | none => [.str userQuery]
    | some g =>
      match jsonLoadsArr ("[" ++ g ++ "]") with
      | some qs => qs.take 3
      | none => [.str userQuery]

/-- A user-visible callback occurrence during `intelligent_complete`, plus a
marker for the final return, used to state ordering properties. -/
inductive CbEvent where
  | searchStart
  | queriesGenerated (qs : List String)
  | searchDone (sources : List Source)
  | update (chunk : String)
  | ret (answer : String)
deriving DecidableEq, Repr

/-- Python `str(e)` for the apology message of `_get_direct_answer`. -/
def pyErrStr : PyErr → String
  | .typeError => "TypeError"
  | .keyError => "KeyError"
  | .indexError => "IndexError"
  | .attributeError => "AttributeError"
  | .valueError => "ValueError"
  | .jsonDecodeError => "JSONDecodeError"
  | .other => "Exception"

/-- The `_stream_request` event loop again, instrumented: `on_update` here
is the transport layer's UI emitter, recorded as a list of delivered
chunks.  Returns the request's outcome together with the updates that were
delivered before it completed or aborted (callback side effects survive an
exception). -/
def streamLoopTr : List EvData → String → List String →
    Except PyErr String × List String
  | [], acc, ups => (.ok acc, ups)
  | .doneMark :: _, acc, ups => (.ok acc, ups)
  | .payload (.error _) :: rest, acc, ups => streamLoopTr rest acc ups
  | .payload (.ok chunk) :: rest, acc, ups =>
    match extractDelta chunk with
    | .error e => (.error e, ups)
    | .ok none => streamLoopTr rest acc ups
    | .ok (some c) => streamLoopTr rest (acc ++ c) (ups ++ [c])

/-- Embedding of `SolarAPI._get_direct_answer` with `stream=True` (solar.py lines
160-182): stream the completion; any exception is caught and turned into
the apology string.  The model's network behaviour is the `events`
parameter.  Returns the answer and the delivered update chunks. -/
def getDirectAnswerStream (events : List EvData) : String × List String :=
  match streamLoopTr events "" [] with
  | (.ok txt, ups) => (txt, ups)
  | (.error e, ups) =>
    ("I apologize, but I encountered an error processing your request: " ++ pyErrStr e, ups)

/-- Embedding of `SolarAPI._get_search_grounded_response` on the real-search path
(solar.py lines 270-366), with `stream=True` and the network modelled by
parameters: `tavily` maps each query to its result list (`_tavily_search`
never raises — it catches everything and returns an empty result list) and
`events` / `directEvents` are the SSE streams of the grounded and of the
fallback direct completion call.  Sources are built, `on_search_done` fires
with them, then the grounded completion streams; if it raises, the
`except` at line 360 falls back to `_get_direct_answer` with empty
sources.  Returns `(response, sources)` and the emitted callback events in
order. -/
def getSearchGrounded (tavily : String → List SR) (queries : List String)
    (events directEvents : List EvData) :
    (String × List Source) × List CbEvent :=
  let allResults := ((queries.take 3).map tavily).flatten
  let unique := dedupResults allResults
  let sources := buildSources unique
  let ev0 := [CbEvent.searchDone sources]
  match streamLoopTr events "" [] with
  | (.ok txt, ups) => ((txt, sources), ev0 ++ ups.map CbEvent.update)
  | (.error _, ups) =>
    let fb := getDirectAnswerStream directEvents
    ((fb.1, []), ev0 ++ ups.map CbEvent.update ++ fb.2.map CbEvent.update)

/-- The `GroundedAnswer` dict returned by `intelligent_complete`. -/
structure GroundedAnswer where
  answer : String
  searchUsed : Bool
  sources : List Source
deriving DecidableEq, Repr

/-- Embedding of `SolarAPI.intelligent_complete` on the search path (solar.py lines
65-92): the necessity verdict was `Y`, so `on_search_start` fires, the
speculative extraction future is collected and `on_search_queries_generated`
fires with its queries, then the grounded retrieval runs (emitting
`on_search_done` and the `on_update` stream) and the result dict is
returned.  The returned event list records the callback invocation order,
with `CbEvent.ret` marking the return. -/
def intelligentCompleteSearch (tavily : String → List SR)
    (queries : List String) (events directEvents : List EvData) :
    GroundedAnswer × List CbEvent :=
  let g := getSearchGrounded tavily queries events directEvents
  (⟨g.1.1, true, g.1.2⟩,
    CbEvent.searchStart :: CbEvent.queriesGenerated queries :: g.2 ++
      [CbEvent.ret g.1.1])

/-- A one-delta SSE chunk `{"choices":[{"delta":{"content": s}}]}`. -/
def deltaChunk (s : String) : Jv :=
  .obj [("choices", .arr [.obj [("delta", .obj [("content", .str s)])]])]

theorem pyCountWords_str (s : String) : pyCountWords (.str s) = .ok (countWords s) := by
  by_cases h : s = ""
  · subst h; rfl
  · simp [pyCountWords, pyTruthy, h]

/-- C1 counterexample input check: on the response `"NY"` — where `'N'`
occurs before `'Y'` among the first three characters — the code returns
`"Y"`, while the claim's first-of-Y-and-N rule demands `"N"`. -/
theorem claim_C1_counterexample :
    checkSearchNeeded (Except.ok "NY") = "Y" ∧ specVerdictC1 "NY" = "N" := by
  constructor <;> rfl

/-- C1 (amended): the verdict is always `"Y"` or `"N"`, and it is `"Y"`
exactly when the completion succeeded and a `'Y'` occurs anywhere in the
first 3 characters of the uppercased, trimmed response — regardless of
whether an `'N'` precedes it; in every other situation (no `'Y'`,
ambiguity, or error) the verdict is `"N"`. -/
theorem claim_C1_theorem (response : Except PyErr String) :
    (checkSearchNeeded response = "Y" ∨ checkSearchNeeded response = "N") ∧
    (checkSearchNeeded response = "Y" ↔
      ∃ s, response = Except.ok s ∧
        'Y' ∈ (((pyStrip s.toList).map Char.toUpper).take 3)) := by
  cases response with
  | error e =>
    refine ⟨Or.inr rfl, ?_, ?_⟩
    · intro h
      simp only [checkSearchNeeded] at h
      exact absurd h (by decide)
    · rintro ⟨s, hs, -⟩; exact Except.noConfusion hs
  | ok s =>
    by_cases hY : ('Y' ∈ (((pyStrip s.toList).map Char.toUpper).take 3))
    · have hc : (((pyStrip s.toList).map Char.toUpper).take 3).contains 'Y' = true :=
        List.elem_iff.mpr hY
      have hYv : checkSearchNeeded (Except.ok s) = "Y" := by
        simp only [checkSearchNeeded, hc, if_true]
      exact ⟨Or.inl hYv, fun _ => ⟨s, rfl, hY⟩, fun _ => hYv⟩
    · have hc : (((pyStrip s.toList).map Char.toUpper).take 3).contains 'Y' = false := by
        rw [Bool.eq_false_iff]
        intro h; exact hY (List.elem_iff.mp h)
      have hN : checkSearchNeeded (Except.ok s) = "N" := by
        simp only [checkSearchNeeded, hc, Bool.false_eq_true, if_false]
        split <;> rfl
      refine ⟨Or.inr hN, ?_, ?_⟩
      · intro h; rw [hN] at h; exact absurd h (by decide)
      · rintro ⟨s', hs', hy⟩
        injection hs' with hss; subst hss
        exact absurd hy hY

/-- C2 counterexample: inside `_stream_request`, the `on_update` invocation
is guarded only by `except json.JSONDecodeError`; a `ValueError` raised by
the caller-supplied `on_update` callback is **not** caught at the
invocation site and propagates out of the streaming request, refuting the
claim that exceptions in every caller-supplied callback are caught and
logged at the invocation site. -/
theorem claim_C2_counterexample :
    streamRequest [.payload (.ok (deltaChunk "hi"))]
      (some (fun _ => Except.error PyErr.valueError)) =
      Except.error PyErr.valueError := rfl

/-- C2 (amended): exceptions raised inside `on_search_start`,
`on_search_queries_generated` and `on_search_done` are caught and logged at
the orchestrator's invocation sites, which always fall through normally;
`on_update`, however, is called bare inside the SSE loop of
`_stream_request`, whose handler only swallows `json.JSONDecodeError` —
any other exception from `on_update` propagates and aborts the stream
(higher-level handlers then turn it into a fallback or apology answer, so
`intelligent_complete` itself still returns). -/
theorem claim_C2_theorem :
    (∀ (α : Type) (cb : Option (α → Except PyErr Unit)) (a : α),
      invokeCallback cb a = Except.ok ()) ∧
    streamRequest [.payload (.ok (deltaChunk "hi")), .payload (.ok (deltaChunk "ho"))]
      (some (fun _ => Except.error PyErr.jsonDecodeError)) = Except.ok "hiho" ∧
    streamRequest [.payload (.ok (deltaChunk "boom"))]
      (some (fun _ => Except.error PyErr.typeError)) = Except.error PyErr.typeError := by
  refine ⟨fun α cb a => ?_, rfl, rfl⟩
  cases cb with
  | none => rfl
  | some f => cases h : f a <;> simp [invokeCallback, h]

/-- C4 counterexample: when the model's response is the empty JSON array
`[]`, `_extract_search_queries_fast` returns the empty list — length 0,
below the claimed lower bound of 1. -/
theorem claim_C4_counterexample :
    extractSearchQueriesFast "orig" (Except.ok "[]") = [] := rfl

/-- C4 (amended): the extracted query list always has at most 3 entries;
on a raised completion exception, a response without a bracketed group, or
an unparseable group, it equals the single-element list holding the
original user query; and it is empty (not length ≥ 1) exactly when the
first bracketed group of the response parses to the empty JSON array. -/
theorem claim_C4_theorem (q : String) (r : Except PyErr String) :
    (extractSearchQueriesFast q r).length ≤ 3 ∧
    (∀ e, r = Except.error e → extractSearchQueriesFast q r = [Jv.str q]) ∧
    (∀ s, r = Except.ok s → bracketGroup s = none →
      extractSearchQueriesFast q r = [Jv.str q]) ∧
    (∀ s g, r = Except.ok s → bracketGroup s = some g →
      jsonLoadsArr ("[" ++ g ++ "]") = none →
      extractSearchQueriesFast q r = [Jv.str q]) ∧
    ((extractSearchQueriesFast q r).length = 0 →
      ∃ s g, r = Except.ok s ∧ bracketGroup s = some g ∧
        jsonLoadsArr ("[" ++ g ++ "]") = some []) := by
  cases r with
  | error e =>
    exact ⟨by simp [extractSearchQueriesFast],
      fun _ _ => rfl,
      fun s hs => Except.noConfusion hs,
      fun s g hs => Except.noConfusion hs,
      by simp [extractSearchQueriesFast]⟩
  | ok s =>
    rcases hb : bracketGroup s with _ | g
    · refine ⟨?_, fun e he => Except.noConfusion he, fun _ _ _ => ?_, ?_, ?_⟩
      · simp [extractSearchQueriesFast, hb]
      · simp [extractSearchQueriesFast, hb]
      · rintro s' g hs' hbg; injection hs' with h; subst h
        rw [hb] at hbg; exact Option.noConfusion hbg
      · simp [extractSearchQueriesFast, hb]
    · rcases hj : jsonLoadsArr ("[" ++ g ++ "]") with _ | qs
      · refine ⟨?_, fun e he => Except.noConfusion he, ?_, ?_, ?_⟩
        · simp [extractSearchQueriesFast, hb, hj]
        · rintro s' hs' hbg; injection hs' with h; subst h
          rw [hb] at hbg; exact Option.noConfusion hbg
        · intro _ _ _ _ _; simp [extractSearchQueriesFast, hb, hj]
        · simp [extractSearchQueriesFast, hb, hj]
      · have he : extractSearchQueriesFast q (Except.ok s) = qs.take 3 := by
          simp [extractSearchQueriesFast, hb, hj]
        refine ⟨?_, fun e he' => Except.noConfusion he', ?_, ?_, ?_⟩
        · rw [he]; exact List.length_take_le 3 qs
        · rintro s' hs' hbg; injection hs' with h; subst h
          rw [hb] at hbg; exact Option.noConfusion hbg
        · rintro s' g' hs' hbg hj'
          injection hs' with h; subst h
          rw [hb] at hbg; injection hbg with h2; subst h2
          rw [hj] at hj'; exact Option.noConfusion hj'
        · intro hlen
          rw [he] at hlen
          have : qs.take 3 = [] := List.length_eq_zero.mp hlen
          have hqs : qs = [] := by
            rcases List.take_eq_nil_iff.mp this with h3 | h3
            · exact absurd h3 (by decide)
            · exact h3
          exact ⟨s, g, rfl, hb, by rw [hj, hqs]⟩

/-- C4 witness: the amended guarantees evaluated on a raised completion
call and on a well-formed three-query response. -/
theorem claim_C4_witness :
    extractSearchQueriesFast "orig" (Except.error PyErr.other) = [Jv.str "orig"] ∧
    (extractSearchQueriesFast "orig" (Except.ok "x [1] y")).length ≤ 3 :=
  ⟨( claim_C4_theorem "orig" (Except.error PyErr.other)).2.1 PyErr.other rfl,
    ( claim_C4_theorem "orig" (Except.ok "x [1] y")).1⟩

/-- C7: `load_memory` starts from the empty state when the file is absent,
when its content fails to parse (`json.JSONDecodeError` is caught), and
when it parses to an object missing the required keys — but a file whose
content is the valid JSON document `42` makes the `key in loaded_memory`
check raise an uncaught `TypeError`, which escapes `MemoryManager`
construction, contradicting the claim that construction never raises. -/
theorem claim_C7_theorem :
    loadMemory none = Except.ok initialMemJ ∧
    loadMemory (some (Except.error ())) = Except.ok initialMemJ ∧
    loadMemory (some (Except.ok (.obj [("conversations", Jv.arr [])]))) =
      Except.ok initialMemJ ∧
    loadMemory (some (Except.ok (Jv.num 42))) = Except.error PyErr.typeError :=
  ⟨rfl, rfl, rfl, rfl⟩

/-- C3 counterexample: with `max_words = 5` and a single 6-word
conversation added to an empty memory, the word count (6) exceeds the
budget and summarization is triggered, but the heuristic fallback has no
conversations older than the last five to fold away: the stored word count
after summarization is still 6, not strictly less than the
pre-summarization value. -/
theorem claim_C3_counterexample :
    (addStep1 "t" "a b c d e f" "" (Jv.arr []) (Jv.obj []) memInit).wordCount = 6 ∧
    (addStep1 "t" "a b c d e f" "" (Jv.arr []) (Jv.obj []) memInit).wordCount > 5 ∧
    (addConversation 5 1000 none "t" "a b c d e f" "" (Jv.arr []) (Jv.obj [])
      memInit).wordCount = 6 ∧
    ¬ ((addConversation 5 1000 none "t" "a b c d e f" "" (Jv.arr []) (Jv.obj [])
      memInit).wordCount <
        (addStep1 "t" "a b c d e f" "" (Jv.arr []) (Jv.obj []) memInit).wordCount) :=
  ⟨rfl, by decide, rfl, by decide⟩

/-- C3 (amended): strict reduction is not guaranteed.  Whenever the memory
holds at most 5 conversations after the append (so the heuristic fallback
finds no older conversations to summarize away) and no LLM summarizer is
configured, the triggered summarization leaves the stored word count
exactly equal to the pre-summarization word count. -/
theorem claim_C3_theorem (maxWords summaryTarget : Nat) (ts ui ar : String)
    (srcs meta : Jv) (m : Mem)
    (hlen : m.conversations.length + 1 ≤ 5)
    (hover : (addStep1 ts ui ar srcs meta m).wordCount > maxWords) :
    (addConversation maxWords summaryTarget none ts ui ar srcs meta m).wordCount
      = (addStep1 ts ui ar srcs meta m).wordCount := by
  have hconv : (addStep1 ts ui ar srcs meta m).conversations
      = m.conversations ++ [⟨ts, ui, ar, srcs, meta⟩] := rfl
  have hlen5 : (addStep1 ts ui ar srcs meta m).conversations.length - 5 = 0 := by
    rw [hconv]
    simp only [List.length_append, List.length_cons, List.length_nil]
    omega
  have hne : (addStep1 ts ui ar srcs meta m).conversations.isEmpty = false := by
    rw [hconv]
    simp [List.isEmpty_iff]
  have hsm : summarizeMemory summaryTarget none (addStep1 ts ui ar srcs meta m)
      = summarizeHeuristic summaryTarget (addStep1 ts ui ar srcs meta m) := by
    unfold summarizeMemory
    simp only [hne, Bool.false_eq_true, if_false]
  simp only [addConversation]
  rw [if_pos hover, hsm]
  unfold summarizeHeuristic
  simp only [hlen5, List.drop_zero, List.take_zero, List.isEmpty_nil, if_true]
  rfl

/-- C3 witness: the amended statement evaluated at a concrete over-budget
call (`max_words = 5`, one six-word conversation). -/
theorem claim_C3_witness :
    (addConversation 5 1000 none "t" "a b c d e f" "" (Jv.arr []) (Jv.obj [])
      memInit).wordCount
      = (addStep1 "t" "a b c d e f" "" (Jv.arr []) (Jv.obj []) memInit).wordCount :=
  claim_C3_theorem 5 1000 "t" "a b c d e f" "" (Jv.arr []) (Jv.obj []) memInit
    (by decide) (by decide)

theorem addStep1_consistent (ts ui ar : String) (srcs meta : Jv) (m : Mem) :
    (addStep1 ts ui ar srcs meta m).wordCount
      = computedWordCount (addStep1 ts ui ar srcs meta m) := rfl

theorem summarizeHeuristic_consistent (t : Nat) (m : Mem) :
    (summarizeHeuristic t m).wordCount
      = computedWordCount (summarizeHeuristic t m) := rfl

theorem summarizeWithLlm_consistent (t : Nat) (f : String → Except PyErr String)
    (m : Mem) (h : m.wordCount = computedWordCount m) :
    (summarizeWithLlm t f m).wordCount
      = computedWordCount (summarizeWithLlm t f m) := by
  unfold summarizeWithLlm
  split
  · exact h
  · split
    · exact h
    · split
      · rfl
      · exact summarizeHeuristic_consistent t m

theorem summarizeMemory_consistent (t : Nat)
    (llm : Option (String → Except PyErr String)) (m : Mem)
    (h : m.wordCount = computedWordCount m) :
    (summarizeMemory t llm m).wordCount
      = computedWordCount (summarizeMemory t llm m) := by
  unfold summarizeMemory
  split
  · exact h
  · split
    · exact summarizeWithLlm_consistent t _ m h
    · exact summarizeHeuristic_consistent t m

theorem addConversation_consistent (maxW t : Nat)
    (llm : Option (String → Except PyErr String))
    (ts ui ar : String) (srcs meta : Jv) (m : Mem) :
    (addConversation maxW t llm ts ui ar srcs meta m).wordCount
      = computedWordCount (addConversation maxW t llm ts ui ar srcs meta m) := by
  simp only [addConversation]
  split
  · exact summarizeMemory_consistent t llm _ (addStep1_consistent ts ui ar srcs meta m)
  · exact addStep1_consistent ts ui ar srcs meta m

theorem runAdds_cons_wordCount (maxW t : Nat)
    (llm : Option (String → Except PyErr String))
    (a : AddArgs) (as : List AddArgs) : ∀ (m0 : Mem),
    (runAdds maxW t llm (a :: as) m0).wordCount
      = computedWordCount (runAdds maxW t llm (a :: as) m0) := by
  induction as generalizing a with
  | nil =>
    intro m0
    exact addConversation_consistent maxW t llm a.ts a.userInput a.assistantResponse
      a.sources a.metadata m0
  | cons b bs ih =>
    intro m0
    exact ih b (addConversation maxW t llm a.ts a.userInput a.assistantResponse
      a.sources a.metadata m0)

/-- C5: after any non-empty sequence of `add_conversation` calls, the
stored `word_count` equals the recomputed sum of whitespace-token counts
of the summary and of every retained conversation's `user_input` and
`assistant_response` — with or without a configured LLM summarizer, and
whether or not summarizations were triggered along the way. -/
theorem claim_C5_theorem (maxW t : Nat)
    (llm : Option (String → Except PyErr String))
    (calls : List AddArgs) (m0 : Mem) (h : calls ≠ []) :
    (runAdds maxW t llm calls m0).wordCount
      = computedWordCount (runAdds maxW t llm calls m0) := by
  cases calls with
  | nil => exact absurd rfl h
  | cons a as => exact runAdds_cons_wordCount maxW t llm a as m0

/-- C5 witness: one concrete `add_conversation` call on the empty memory,
with the default budgets. -/
theorem claim_C5_witness :
    (runAdds 5000 1000 none [⟨"t", "hello there", "hi my friend", Jv.arr [], Jv.obj []⟩]
      memInit).wordCount
      = computedWordCount
          (runAdds 5000 1000 none [⟨"t", "hello there", "hi my friend", Jv.arr [], Jv.obj []⟩]
            memInit) :=
  claim_C5_theorem 5000 1000 none
    [⟨"t", "hello there", "hi my friend", Jv.arr [], Jv.obj []⟩] memInit (by simp)

theorem dedupAux_sublist (l : List SR) : ∀ (seen : List String),
    (dedupAux seen l).Sublist l := by
  induction l with
  | nil => intro seen; simp [dedupAux]
  | cons r rs ih =>
    intro seen
    simp only [dedupAux]
    split
    · exact List.Sublist.cons₂ r (ih _)
    · exact List.Sublist.cons r (ih _)

theorem dedupAux_filter_of_seen (u : String) : ∀ (l : List SR) (seen : List String),
    u ∈ seen →
    (dedupAux seen l).filter (fun x => decide (x.url = some u)) = [] := by
  intro l
  induction l with
  | nil => intro seen _; simp [dedupAux]
  | cons r rs ih =>
    intro seen hu
    simp only [dedupAux]
    split
    · rename_i hc
      rw [List.filter_cons]
      have hd : decide (r.url = some u) = false := by
        apply decide_eq_false
        intro hr
        have : r.url.getD "" = u := by rw [hr]; rfl
        exact hc.2 (this ▸ hu)
      simp only [hd, Bool.false_eq_true, if_false]
      exact ih _ (List.mem_cons_of_mem _ hu)
    · exact ih seen hu

theorem dedupAux_filter_first (u : String) (hu : u ≠ "") :
    ∀ (pre : List SR) (r : SR) (post : List SR) (seen : List String),
      r.url = some u → (∀ x ∈ pre, x.url ≠ some u) → u ∉ seen →
      (dedupAux seen (pre ++ r :: post)).filter (fun x => decide (x.url = some u))
        = [r] := by
  intro pre
  induction pre with
  | nil =>
    intro r post seen hr hpre hseen
    have hget : r.url.getD "" = u := by rw [hr]; rfl
    simp only [List.nil_append, dedupAux]
    rw [if_pos (by rw [hget]; exact ⟨hu, hseen⟩)]
    rw [List.filter_cons]
    have hd : decide (r.url = some u) = true := by rw [hr]; simp
    simp only [hd, if_true]
    rw [hget, dedupAux_filter_of_seen u post (u :: seen) (List.mem_cons_self u seen)]
  | cons x pre ih =>
    intro r post seen hr hpre hseen
    have hx : x.url ≠ some u := hpre x (List.mem_cons_self _ _)
    have hxget : x.url.getD "" ≠ u := by
      intro hgu
      cases hxu : x.url with
      | none => rw [hxu] at hgu; exact hu hgu.symm
      | some w =>
        rw [hxu] at hgu
        simp only [Option.getD_some] at hgu
        exact hx (by rw [hxu, hgu])
    simp only [List.cons_append, dedupAux]
    split
    · rw [List.filter_cons]
      have hd : decide (x.url = some u) = false := decide_eq_false hx
      simp only [hd, Bool.false_eq_true, if_false]
      refine ih r post (x.url.getD "" :: seen) hr
        (fun y hy => hpre y (List.mem_cons_of_mem _ hy)) ?_
      intro hmem
      rcases List.mem_cons.mp hmem with h1 | h1
      · exact hxget h1.symm
      · exact hseen h1
    · exact ih r post seen hr (fun y hy => hpre y (List.mem_cons_of_mem _ hy)) hseen

theorem dedupAux_url_ne (l : List SR) : ∀ (seen : List String) (r : SR),
    r ∈ dedupAux seen l → r.url.getD "" ≠ "" := by
  induction l with
  | nil => intro seen r h; simp [dedupAux] at h
  | cons x rs ih =>
    intro seen r h
    simp only [dedupAux] at h
    split at h
    · rename_i hc
      rcases List.mem_cons.mp h with h1 | h1
      · rw [h1]; exact hc.1
      · exact ih _ r h1
    · exact ih _ r h

/-- C6 counterexample: a result list whose `url` field repeats the empty
string at positions 0 < 1.  The claim demands exactly one entry for that
url in the deduplicated list; the code's truthiness guard drops both, so
the deduplicated list contains zero entries. -/
theorem claim_C6_counterexample :
    dedupResults [⟨none, some "", none, none, none, none⟩,
      ⟨none, some "", none, none, none, none⟩] = [] ∧
    (([⟨none, some "", none, none, none, none⟩,
      ⟨none, some "", none, none, none, none⟩] : List SR).get ⟨0, by decide⟩).url
      = some "" :=
  ⟨rfl, rfl⟩

/-- C6 (amended): for a repeated **non-empty** url with first occurrence at
position i (and a duplicate at some j > i), the deduplicated list contains
exactly one entry for that url, namely the entry at position i, and the
deduplicated list is a sublist of the input (order preserved); results
whose url is empty or absent are dropped. -/
theorem claim_C6_theorem (rs : List SR) (u : String) (i j : Nat)
    (hij : i < j) (hj : j < rs.length) (hu : u ≠ "")
    (hi : (rs.get ⟨i, by omega⟩).url = some u)
    (hju : (rs.get ⟨j, hj⟩).url = some u)
    (hfirst : ∀ k (hk : k < i), (rs.get ⟨k, by omega⟩).url ≠ some u) :
    (dedupResults rs).filter (fun x => decide (x.url = some u))
      = [rs.get ⟨i, by omega⟩] ∧ (dedupResults rs).Sublist rs := by
  have hi' : i < rs.length := by omega
  constructor
  · have hsplit : rs.take i ++ rs.get ⟨i, hi'⟩ :: rs.drop (i + 1) = rs := by
      rw [List.get_eq_getElem, ← List.drop_eq_getElem_cons hi', List.take_append_drop]
    have hpre : ∀ x ∈ rs.take i, x.url ≠ some u := by
      intro x hx hxu
      rw [List.mem_iff_getElem] at hx
      obtain ⟨k, hk, hkx⟩ := hx
      have hki : k < i := by
        have h2 := hk
        rw [List.length_take] at h2
        omega
      rw [List.getElem_take] at hkx
      apply hfirst k hki
      rw [List.get_eq_getElem]
      rw [hkx]
      exact hxu
    conv_lhs => rw [show dedupResults rs
      = dedupResults (rs.take i ++ rs.get ⟨i, hi'⟩ :: rs.drop (i + 1)) by rw [hsplit]]
    exact dedupAux_filter_first u hu (rs.take i) _ _ [] hi hpre (by simp)
  · exact dedupAux_sublist rs []

/-- C6 witness: a two-element list repeating the non-empty url `"a"`; the
deduplicated list keeps exactly the first entry. -/
theorem claim_C6_witness :
    (dedupResults [⟨none, some "a", none, none, none, none⟩,
        ⟨some "t", some "a", none, none, none, none⟩]).filter
        (fun x => decide (x.url = some "a"))
      = [([⟨none, some "a", none, none, none, none⟩,
          ⟨some "t", some "a", none, none, none, none⟩] : List SR).get ⟨0, by decide⟩] ∧
    (dedupResults [⟨none, some "a", none, none, none, none⟩,
        ⟨some "t", some "a", none, none, none, none⟩]).Sublist
      [⟨none, some "a", none, none, none, none⟩,
        ⟨some "t", some "a", none, none, none, none⟩] :=
  claim_C6_theorem
    [⟨none, some "a", none, none, none, none⟩, ⟨some "t", some "a", none, none, none, none⟩]
    "a" 0 1 (by decide) (by decide) (by decide) rfl rfl
    (fun k hk => absurd hk (Nat.not_lt_zero k))

/-- C10: during grounded retrieval every merged search result whose `url`
is absent or empty is dropped by the deduplication step, and consequently
every source dict built for `on_search_done` and the returned result has a
non-empty `url` (a kept result's real url, never the `"No URL"` default
for an empty one). -/
theorem claim_C10_theorem (rs : List SR) :
    (∀ r, r ∈ dedupResults rs → r.url.getD "" ≠ "") ∧
    (∀ s, s ∈ buildSources (dedupResults rs) → s.url ≠ "") := by
  constructor
  · intro r h; exact dedupAux_url_ne rs [] r h
  · intro s hs
    simp only [buildSources, List.mem_map] at hs
    obtain ⟨p, hp, hps⟩ := hs
    obtain ⟨hlt, hx⟩ := List.mem_enum hp
    have hmem : p.2 ∈ dedupResults rs := by
      rw [hx]
      exact List.mem_of_mem_take (List.getElem_mem hlt)
    have hurl := dedupAux_url_ne rs [] p.2 hmem
    rw [← hps]
    simp only
    cases hu2 : p.2.url with
    | none => simp [hu2]
    | some w =>
      rw [hu2] at hurl
      simp only [Option.getD_some] at hurl ⊢
      simp [hu2, hurl]

/-- C10 witness: the guarantee evaluated on a singleton result list. -/
theorem claim_C10_witness :
    ({ id := 1, title := "No Title", url := "https://a", content := "No Content",
        score := 0, publishedDate := "No Date" } : Source).url ≠ "" :=
  (claim_C10_theorem [⟨none, some "https://a", none, none, none, none⟩]).2
    { id := 1, title := "No Title", url := "https://a", content := "No Content",
      score := 0, publishedDate := "No Date" }
    (by decide)

/-- C8: on the search path, the callback order within one
`intelligent_complete` call is strictly `on_search_start`, then
`on_search_queries_generated`, then `on_search_done` (with the sources
built from the deduplicated merged results), then the stream of
`on_update` calls — each carrying one content delta, in emission order —
and only then the return of the result value, for every search outcome and
every SSE stream (including the fallback where the grounded completion
raises and the direct answer streams instead). -/
theorem claim_C8_theorem (tavily : String → List SR) (queries : List String)
    (events directEvents : List EvData) :
    ∃ updates : List String,
      (intelligentCompleteSearch tavily queries events directEvents).2 =
        CbEvent.searchStart :: CbEvent.queriesGenerated queries ::
          CbEvent.searchDone
            (buildSources (dedupResults (((queries.take 3).map tavily).flatten))) ::
          (updates.map CbEvent.update ++
            [CbEvent.ret
              (intelligentCompleteSearch tavily queries events directEvents).1.answer]) := by
  rcases h : streamLoopTr events "" [] with ⟨res, ups⟩
  cases res with
  | ok txt =>
    refine ⟨ups, ?_⟩
    simp [intelligentCompleteSearch, getSearchGrounded, h]
  | error e =>
    refine ⟨ups ++ (getDirectAnswerStream directEvents).2, ?_⟩
    simp [intelligentCompleteSearch, getSearchGrounded, h, List.map_append]

theorem foldl_words_init (l : List Conv) (a : Nat) :
    l.foldl (fun acc c => acc + countWords c.userInput + countWords c.assistantResponse) a
      = a + l.foldl
          (fun acc c => acc + countWords c.userInput + countWords c.assistantResponse) 0 := by
  induction l generalizing a with
  | nil => simp
  | cons c t ih =>
    simp only [List.foldl_cons]
    rw [ih, ih (0 + countWords c.userInput + countWords c.assistantResponse)]
    omega

theorem truthyCount (s : String) :
    (if pyTruthy (Jv.str s) then pyCountWords (Jv.str s) else pure 0)
      = (Except.ok (countWords s) : Except PyErr Nat) := by
  by_cases h : s = ""
  · subst h; rfl
  · have ht : pyTruthy (Jv.str s) = true := by simp [pyTruthy, h]
    rw [ht, if_pos rfl, pyCountWords_str]

theorem ok_bind {α β : Type} (a : α) (f : α → Except PyErr β) :
    (Except.ok a >>= f) = f a := rfl

theorem pure_ok {α : Type} (a : α) : (pure a : Except PyErr α) = Except.ok a := rfl

theorem convLoopJ_map (l : List Conv) : ∀ (acc : Nat),
    convLoopJ (l.map convToJ) acc
      = Except.ok (l.foldl
          (fun a c => a + countWords c.userInput + countWords c.assistantResponse) acc) := by
  induction l with
  | nil => intro acc; rfl
  | cons c t ih =>
    intro acc
    have h1 : pyGetStr "user_input" (convToJ c) = Except.ok (Jv.str c.userInput) := rfl
    have h2 : pyGetStr "assistant_response" (convToJ c)
        = Except.ok (Jv.str c.assistantResponse) := rfl
    simp only [List.map_cons, convLoopJ, h1, h2, ok_bind, pyCountWords_str, ih,
      List.foldl_cons]

theorem updateWordCountJ_save (m : Mem) :
    updateWordCountJ (saveMemory m)
      = Except.ok (saveMemory { m with wordCount := computedWordCount m }) := by
  have h1 : pyGetStr "summary" (saveMemory m) = Except.ok (Jv.str m.summary) := rfl
  have h3 : pyGetStr "conversations" (saveMemory m)
      = Except.ok (Jv.arr (m.conversations.map convToJ)) := rfl
  simp only [updateWordCountJ, h1, ok_bind]
  by_cases hsum : pyTruthy (Jv.str m.summary) = true
  · rw [if_pos hsum]
    simp only [pyCountWords_str, ok_bind, h3, pyForConvs, convLoopJ_map]
    rw [foldl_words_init]
    rfl
  · have hempty : m.summary = "" := by
      simpa [pyTruthy] using hsum
    rw [if_neg hsum]
    simp only [pure_ok, ok_bind, h3, pyForConvs, convLoopJ_map]
    have hwc : computedWordCount m
        = m.conversations.foldl
            (fun a c => a + countWords c.userInput + countWords c.assistantResponse) 0 := by
      simp only [computedWordCount, hempty]
      rw [show countWords "" = 0 from rfl]
      exact Nat.zero_add _
    rw [hwc]
    rfl

/-- C9 counterexample: a `MemoryState` whose stored `word_count` (5) is not
the recomputed count of its (empty) content does not round-trip:
`load_memory` recomputes `word_count` after reading the document back, so
the loaded state differs from the saved one. -/
theorem claim_C9_counterexample :
    loadMemory (some (Except.ok (saveMemory ⟨[], "", .null, 5⟩)))
      ≠ Except.ok (saveMemory ⟨[], "", .null, 5⟩) := by
  intro h
  have h2 := congrArg (fun x => match x with
    | Except.ok v =>
      (match pyGetStr "word_count" v with
        | Except.ok (.num n) => n
        | _ => 0)
    | Except.error _ => 0) h
  exact absurd h2 (by decide)

/-- C9 (amended): saving a `MemoryState` and loading it back yields the
state with the same conversations and summary but with `word_count`
recomputed from that content; in particular the round trip is the identity
exactly for states whose stored `word_count` already equals the recomputed
value (as is the case for every state the manager itself produces). -/
theorem claim_C9_theorem (m : Mem) :
    loadMemory (some (Except.ok (saveMemory m)))
      = Except.ok (saveMemory { m with wordCount := computedWordCount m }) ∧
    (m.wordCount = computedWordCount m →
      loadMemory (some (Except.ok (saveMemory m))) = Except.ok (saveMemory m)) := by
  have hload : loadMemory (some (Except.ok (saveMemory m)))
      = updateWordCountJ (saveMemory m) := rfl
  constructor
  · rw [hload, updateWordCountJ_save]
  · intro h
    rw [hload, updateWordCountJ_save, ← h]

/-- C9 witness: the empty state is consistent and round-trips exactly. -/
theorem claim_C9_witness :
    loadMemory (some (Except.ok (saveMemory memInit))) = Except.ok (saveMemory memInit) :=
  (claim_C9_theorem memInit).2 (by decide)
